import Mathlib

/-!
Verification of the action-processing / anti-fraud pipeline specification
against the repository's source.  Each section embeds one part of the code
base shallowly (TypeScript functions become Lean functions; stateful code
becomes explicit state passing) and proves the claimed properties.
-/

/-! ## Problem 4: three summation implementations (`src/problem4`) -/

namespace Problem4

/-- JavaScript's `Number.isInteger`, on inputs representable as rationals. -/
def isInteger (n : ℚ) : Bool := n.den == 1

/-- `MAX_SAFE_FORMULA_INPUT = Math.floor(Math.sqrt(Number.MAX_SAFE_INTEGER * 2))`,
which the utils module documents to evaluate to 134,217,727. -/
def MAX_SAFE_FORMULA_INPUT : ℚ := 134217727

/-- `MAX_SAFE_RECURSIVE_INPUT = 10000` from `src/problem4/utils/index.ts`. -/
def MAX_SAFE_RECURSIVE_INPUT : ℚ := 10000

/-- `validateInput` from `src/problem4/utils/index.ts`: throws unless `n` is a
non-negative integer, and (when `maxValue` is supplied) unless `n ≤ maxValue`.
The thrown `Error` is modelled as `Except.error` carrying the message. -/
def validateInput (n : ℚ) (maxValue : Option ℚ) : Except String Unit :=
  if !(isInteger n) || decide (n < 0) then
    Except.error "Input must be a non-negative integer"
  else
    match maxValue with
    | some m =>
        if decide (n > m) then Except.error "Input value is too large"
        else Except.ok ()
    | none => Except.ok ()

/-- The `for` loop of `sum_to_n_a`: `for (let i = 1; i <= n; i++) sum += i`. -/
def loopSum : Nat → ℚ
  | 0 => 0
  | k + 1 => loopSum k + (k + 1)

/-- `sum_to_n_a` (for-loop implementation, `src/problem4`, part_010). -/
def sum_to_n_a (n : ℚ) : Except String ℚ :=
  match validateInput n none with
  | Except.error e => Except.error e
  | Except.ok _ =>
      if n == 0 then Except.ok 0
      else Except.ok (loopSum n.num.toNat)

/-- `sum_to_n_b` (closed-formula implementation `n * (n + 1) / 2`).  Within the
validated range the JavaScript double arithmetic is exact, so exact rational
arithmetic embeds it faithfully. -/
def sum_to_n_b (n : ℚ) : Except String ℚ :=
  match validateInput n (some MAX_SAFE_FORMULA_INPUT) with
  | Except.error e => Except.error e
  | Except.ok _ =>
      if n == 0 then Except.ok 0
      else Except.ok ((n * (n + 1)) / 2)

/-- The recursion of `sum_to_n_c` after validation (base cases 0 and 1,
step `n + sum_to_n_c (n - 1)`). -/
def sumRec : Nat → ℚ
  | 0 => 0
  | 1 => 1
  | k + 2 => ((k : ℚ) + 2) + sumRec (k + 1)

/-- `sum_to_n_c` (recursive implementation, guarded by
`MAX_SAFE_RECURSIVE_INPUT`). -/
def sum_to_n_c (n : ℚ) : Except String ℚ :=
  match validateInput n (some MAX_SAFE_RECURSIVE_INPUT) with
  | Except.error e => Except.error e
  | Except.ok _ => Except.ok (sumRec n.num.toNat)
end Problem4


/-! ## Problem 5: authentication middleware and role constants
(`src/middleware/auth.ts`, `src/constants/roles.ts`, `src/routes/newsRoutes.ts`) -/

namespace NewsAuth

/-- `UserRole` from `src/constants/roles.ts` (`USER_ROLES`). -/
inductive UserRole where
  | admin
  | editor
  | viewer
deriving DecidableEq, Repr

def UserRole.toName : UserRole → String
  | .admin => "admin"
  | .editor => "editor"
  | .viewer => "viewer"

/-- `ROLE_PERMISSIONS` from `src/constants/roles.ts`. -/
def ROLE_PERMISSIONS : UserRole → List String
  | .admin => ["create", "read", "update", "delete", "manage_users"]
  | .editor => ["create", "read", "update", "delete"]
  | .viewer => ["read"]

/-- `hasPermission` from `src/constants/roles.ts`:
`ROLE_PERMISSIONS[role]?.includes(action) || false`. -/
def hasPermission (role : UserRole) (permission : String) : Bool :=
  (ROLE_PERMISSIONS role).contains permission

/-- The decoded JWT payload `{ id, email, role }`. -/
structure JwtPayload where
  id : String
  email : String
  role : UserRole
deriving DecidableEq, Repr

/-- A bearer token as `jsonwebtoken.verify` classifies it: `valid` decodes to a
payload, `expired` raises `TokenExpiredError`, `malformed` raises
`JsonWebTokenError`. -/
inductive Token where
  | valid (payload : JwtPayload)
  | expired (payload : JwtPayload)
  | malformed
deriving DecidableEq, Repr

/-- `verifyToken` from `src/middleware/auth.ts`: returns the decoded payload,
or `null` when `jwt.verify` throws (for both expired and malformed tokens the
`catch` swallows the distinct exception and returns `null`). -/
def verifyToken : Token → Option JwtPayload
  | .valid p => some p
  | .expired _ => none
  | .malformed => none

/-- `AppError` from `src/middleware/errorHandler.ts`: a message plus an HTTP
status code. -/
structure AppError where
  message : String
  statusCode : Nat
deriving DecidableEq, Repr

/-- A stored user row as `authenticate` consults it (`User.findById` then
`isActive`). -/
structure UserRow where
  isActive : Bool
deriving DecidableEq, Repr

/-- The `req.user` principal attached by `authenticate`. -/
structure Principal where
  id : String
  email : String
  role : UserRole
deriving DecidableEq, Repr

/-- `authenticate` from `src/middleware/auth.ts`.  `header` is the token
extracted from a `Bearer` authorization header (`none` when the header is
missing or not `Bearer`-prefixed); `findById` models `User.findById`. -/
def authenticate (header : Option Token) (findById : String → Option UserRow) :
    Except AppError Principal :=
  match header with
  | none =>
      Except.error ⟨"Authentication required. Please provide a valid token.", 401⟩
  | some token =>
      match verifyToken token with
      | none => Except.error ⟨"Invalid or expired token.", 401⟩
      | some decoded =>
          match findById decoded.id with
          | none => Except.error ⟨"User no longer exists or is inactive.", 401⟩
          | some u =>
              if u.isActive then
                Except.ok ⟨decoded.id, decoded.email, decoded.role⟩
              else
                Except.error ⟨"User no longer exists or is inactive.", 401⟩

/-- The 403 message built by `authorize`:
``Access denied. Required role(s): ${roles.join(', ')}. Your role: ${req.user.role}``. -/
def accessDeniedMessage (roles : List UserRole) (r : UserRole) : String :=
  "Access denied. Required role(s): " ++
    String.intercalate ", " (roles.map UserRole.toName) ++
    ". Your role: " ++ r.toName

/-- `authorize(...roles)` from `src/middleware/auth.ts`: passes exactly when a
principal is attached and its role is in the allowed-roles list; otherwise it
rejects with 401 (no principal) or 403. -/
def authorize (roles : List UserRole) (user : Option Principal) :
    Except AppError Unit :=
  match user with
  | none => Except.error ⟨"Authentication required.", 401⟩
  | some u =>
      if u.role ∈ roles then Except.ok ()
      else Except.error ⟨accessDeniedMessage roles u.role, 403⟩

end NewsAuth

/-! ## Problem 5: error handler (`src/middleware/errorHandler.ts`) and the
DELETE news route (`src/routes/newsRoutes.ts`) -/

namespace NewsApi

open NewsAuth

/-- The kind of `err` value reaching `errorHandler`: either an `AppError`
instance (with its `statusCode`), or a plain error carrying its constructor
`name` and optional numeric `code` (Mongo duplicate-key errors). -/
inductive ErrKind where
  | app (statusCode : Nat)
  | plain (name : String) (code : Option Nat)
deriving DecidableEq, Repr

/-- An error object as `errorHandler` inspects it. -/
structure JsError where
  kind : ErrKind
  message : String
deriving DecidableEq, Repr

/-- The JSON body fields `errorHandler` can emit: `success`, `message`, the
`errors` field of the ValidationError branch, and the spread
`...(NODE_ENV === 'development' && { error: err.message })` of the default
branch. -/
structure ErrorBody where
  success : Bool
  message : String
  errors : Option String
  error : Option String
deriving DecidableEq, Repr

/-- `errorHandler` from `src/middleware/errorHandler.ts`, as a function from
the error and the `NODE_ENV` configuration to the HTTP status and JSON body. -/
def errorHandler (err : JsError) (nodeEnv : String) : Nat × ErrorBody :=
  match err.kind with
  | .app statusCode => (statusCode, ⟨false, err.message, none, none⟩)
  | .plain name code =>
      if name = "ValidationError" then
        (400, ⟨false, "Validation error", some err.message, none⟩)
      else if name = "CastError" then
        (400, ⟨false, "Invalid ID format", none, none⟩)
      else if name = "MongoError" ∧ code = some 11000 then
        (409, ⟨false, "Duplicate entry found", none, none⟩)
      else
        (500, ⟨false, "Internal server error", none,
          if nodeEnv = "development" then some err.message else none⟩)

/-- Whether `err` falls through to the default (unhandled) branch of
`errorHandler`. -/
def isDefaultBranch (err : JsError) : Prop :=
  match err.kind with
  | .app _ => False
  | .plain name code =>
      name ≠ "ValidationError" ∧ name ≠ "CastError" ∧
        ¬(name = "MongoError" ∧ code = some 11000)

instance (err : JsError) : Decidable (isDefaultBranch err) := by
  unfold isDefaultBranch
  cases err.kind <;> infer_instance

/-- A news article row, carrying only the id the DELETE handler filters on. -/
structure Article where
  id : String
deriving DecidableEq, Repr

/-- The handler effect of `newsController.deleteNews`: the article with the
given id is removed from storage (status 200), or 404 when absent. -/
def deleteNewsHandler (targetId : String) (db : List Article) :
    Nat × List Article :=
  if db.any (fun a => a.id == targetId) then
    (200, db.filter (fun a => a.id ≠ targetId))
  else (404, db)

/-- `router.delete('/:id', authenticate, authorize(USER_ROLES.ADMIN), ...)`
from `src/routes/newsRoutes.ts`, run for a request that already passed
`authenticate` (so `req.user` is attached): the `authorize` middleware runs
before the handler, and the handler runs only if it passes.  Returns the HTTP
status and the article store after the request. -/
def runDeleteRoute (user : Principal) (targetId : String) (db : List Article) :
    Nat × List Article :=
  match authorize [UserRole.admin] (some user) with
  | Except.error e => (e.statusCode, db)
  | Except.ok _ => deleteNewsHandler targetId db

end NewsApi

/-! ## Problem 6: the score-board action pipeline.  The repository ships this
subsystem as design documents (`src/problem6/README.md`,
`src/problem6/FLOW_DIAGRAM.md`) with embedded pseudocode; definitions below
embed that pseudocode directly, and components described only in prose are
modelled from the spec (their doc comments say so). -/

namespace ScoreBoard

/-- One sliding-window rate-limit check, embedding the Redis sorted-set
pseudocode of `src/problem6/README.md` (section "Sliding Window"): purge
entries older than the window (`zremrangebyscore key 0 (now - windowSize)`),
count the remaining timestamps (`zcard`), reject with `RATE_LIMIT_EXCEEDED`
when the count has reached the limit, otherwise record the current timestamp
(`zadd key now`).  Returns the check result and the stored window. -/
def rateCheck (limit : Nat) (windowSize now : Int) (store : List Int) :
    Except String Unit × List Int :=
  let purged := store.filter (fun ts => decide (now - windowSize < ts))
  if limit ≤ purged.length then (Except.error "RATE_LIMIT_EXCEEDED", purged)
  else (Except.ok (), purged ++ [now])

/-- `n` consecutive rate-limit checks at time `t` starting from an empty
window: whether all were allowed, and the final window contents. -/
def repeatCheck (limit : Nat) (windowSize t : Int) : Nat → Bool × List Int
  | 0 => (true, [])
  | n + 1 =>
      let prev := repeatCheck limit windowSize t n
      match rateCheck limit windowSize t prev.2 with
      | (Except.ok _, store2) => (prev.1, store2)
      | (Except.error _, store2) => (false, store2)

/-- A task row as `processAction` consults it (owner and completion flag). -/
structure Task where
  userId : String
  completed : Bool
deriving DecidableEq, Repr

/-- The server-held environment read by `processAction`: `getTask`,
`SCORE_TABLE`, `getUserLevel` and `LEVEL_MULTIPLIERS` from the README
pseudocode. -/
structure ScoreEnv where
  getTask : String → Option Task
  scoreTable : String → ℚ
  userLevel : String → Nat
  levelMultiplier : Nat → ℚ

/-- The `actionData`/`metadata` payload of an ActionRequest.  `taskId` and
`completionTime` are the whitelisted metadata fields the README pseudocode
reads; `pointsRequested` is the client-asserted reward-like field of the
README's "WRONG" example — it may be present in `actionData` but the server
never reads it. -/
structure ActionMetadata where
  taskId : String
  completionTime : ℚ
  pointsRequested : Option ℚ
deriving DecidableEq, Repr

/-- `processAction` from the zero-trust pseudocode in
`src/problem6/README.md` (lines 1042-1065): resolve the task, check
ownership and completion, then compute the delta from the static score table
with the quick-completion bonus (`× 1.5` when `completionTime < 60`) and the
level multiplier. -/
def processAction (env : ScoreEnv) (userId actionType : String)
    (metadata : ActionMetadata) : Except String ℚ :=
  match env.getTask metadata.taskId with
  | none => Except.error "TASK_NOT_FOUND"
  | some task =>
      if task.userId ≠ userId then Except.error "UNAUTHORIZED"
      else if task.completed then Except.error "ALREADY_COMPLETED"
      else
        let base := env.scoreTable actionType
        let withBonus :=
          if metadata.completionTime < 60 then base * (3 / 2) else base
        Except.ok (withBonus * env.levelMultiplier (env.userLevel userId))

/-- A `score_history` row (`ScoreTransaction`).  The schema stores integer
scores; the spec allows an "integer/decimal delta", so scores are embedded as
rationals, which subsumes the integer case. -/
structure ScoreTransaction where
  userId : String
  actionType : String
  scoreBefore : ℚ
  scoreDelta : ℚ
  scoreAfter : ℚ
deriving DecidableEq, Repr

/-- `UserScoreState` for one user: `currentScore` plus the user's append-only
ledger in commit order. -/
structure UserScoreState where
  currentScore : ℚ
  history : List ScoreTransaction
deriving DecidableEq, Repr

/-- Modelled from the spec: `TransactionalLedger.commit(userId, delta)` for a
single user — read `scoreBefore` from the server-held state, recompute
`scoreAfter = scoreBefore + scoreDelta`, append the `ScoreTransaction`, update
`currentScore`.  (The TransactionalLedger implementation is absent from the
source; only the `score_history` schema and the design prose describe it.) -/
def ledgerCommit (userId actionType : String) (delta : ℚ)
    (st : UserScoreState) : UserScoreState :=
  let before := st.currentScore
  let after := before + delta
  { currentScore := after
    history := st.history ++ [⟨userId, actionType, before, delta, after⟩] }

/-- A sequence of commits for one user, in commit order. -/
def commitAll (userId : String) (ops : List (String × ℚ))
    (st : UserScoreState) : UserScoreState :=
  ops.foldl (fun s op => ledgerCommit userId op.1 op.2 s) st

/-- Replaying a transaction history from a starting score. -/
def replayScore (s0 : ℚ) (ts : List ScoreTransaction) : ℚ :=
  ts.foldl (fun s t => s + t.scoreDelta) s0

/-- `ChainedTo s ts e`: `ts` is a causally ordered ledger that starts at score
`s` and ends at score `e` — each transaction starts from the running score and
adds its delta. -/
def ChainedTo : ℚ → List ScoreTransaction → ℚ → Prop
  | s, [], e => e = s
  | s, t :: rest, e =>
      t.scoreBefore = s ∧ t.scoreAfter = s + t.scoreDelta ∧
        ChainedTo t.scoreAfter rest e

/-- A signed ActionRequest as the SignatureVerifier sees it. -/
structure SignedRequest where
  payload : String
  nonce : String
  timestamp : Int
  userId : String
  signature : String
deriving DecidableEq, Repr

/-- The canonical message `payload|nonce|timestamp|userId` from
`src/problem6/README.md` (request-signing section). -/
def canonicalMessage (r : SignedRequest) : String :=
  r.payload ++ "|" ++ r.nonce ++ "|" ++ toString r.timestamp ++ "|" ++ r.userId

/-- Modelled from the spec: HMAC-SHA256 as an ideal keyed tag (the hash
implementation is outside the source; only its use is specified). -/
def hmacTag (secret message : String) : String :=
  secret ++ ":" ++ message

/-- Nonce TTL: 5 minutes (300 s), from the README ("Store nonce: Save in
Redis with TTL 5 minutes"). -/
def NONCE_TTL : Int := 300

/-- Whether `n` is present (and unexpired) in the nonce store at time `now`;
entries expire after `NONCE_TTL` as Redis TTL keys do. -/
def nonceSeen (store : List (String × Int)) (now : Int) (n : String) : Bool :=
  store.any (fun e => e.1 == n && decide (now - e.2 < NONCE_TTL))

/-- Modelled from the spec: the "Server Validation" sequence of
`src/problem6/README.md` (lines 988-993) — (1) reject stale timestamps
(`now - timestamp < 60` required), (2) reject an already-seen nonce, (3)
recompute and compare the HMAC signature, (4) store the nonce, (5) only then
process.  On any rejection the store is returned unchanged. -/
def verifySigned (now : Int) (secret : String) (req : SignedRequest)
    (store : List (String × Int)) :
    Except String Unit × List (String × Int) :=
  if 60 ≤ now - req.timestamp then (Except.error "STALE_REQUEST", store)
  else if nonceSeen store now req.nonce then
    (Except.error "REPLAY_ATTACK", store)
  else if req.signature ≠ hmacTag secret (canonicalMessage req) then
    (Except.error "INVALID_SIGNATURE", store)
  else (Except.ok (), store ++ [(req.nonce, now)])

/-- The gateway JWT payload: user id plus permission list. -/
structure GatewayPayload where
  userId : String
  permissions : List String
deriving DecidableEq, Repr

/-- A gateway bearer token; `FLOW_DIAGRAM.md` maps both invalid and expired
tokens to the single rejection `INVALID_TOKEN`. -/
inductive GatewayToken where
  | valid (payload : GatewayPayload)
  | invalid
deriving DecidableEq, Repr

/-- Modelled from the spec: the AuthGate of `FLOW_DIAGRAM.md` layer 2 —
verify the JWT, then a pure permission-membership RBAC check. -/
def authGate (token : GatewayToken) (requiredPermission : String) :
    Except String GatewayPayload :=
  match token with
  | .invalid => Except.error "INVALID_TOKEN"
  | .valid p =>
      if requiredPermission ∈ p.permissions then Except.ok p
      else Except.error "FORBIDDEN"

/-- A full pipeline request: bearer token, signed envelope, action type and
action data. -/
structure PipelineRequest where
  token : GatewayToken
  signed : SignedRequest
  actionType : String
  metadata : ActionMetadata
deriving DecidableEq, Repr

/-- Server state touched by the pipeline: the rate-limit window for the
request's identity, the nonce store, the user's ledger, the cached-score
flag, and the broadcast channel. -/
structure PipelineState where
  rateEvents : List Int
  nonces : List (String × Int)
  ledger : UserScoreState
  cacheValid : Bool
  events : List (String × ℚ)
deriving DecidableEq, Repr

/-- Pipeline configuration: rate limit and window, per-session signing
secrets, and the ScoreEngine environment. -/
structure PipelineEnv where
  rateLimit : Nat
  rateWindow : Int
  secretOf : String → String
  score : ScoreEnv

/-- The success payload returned to the client. -/
structure SuccessResult where
  userId : String
  scoreDelta : ℚ
  newTotalScore : ℚ
deriving DecidableEq, Repr

/-- Modelled from the spec: the pipeline in the fixed stage order of
`FLOW_DIAGRAM.md` section 4 — RateLimiter, AuthGate, SignatureVerifier,
ScoreEngine, TransactionalLedger, then CacheInvalidator/Broadcaster.  Each
stage may short-circuit with its typed rejection; a rate-limit check consumes
the counter even when a later stage rejects (spec §5), and a verified nonce
stays stored. -/
def processRequest (env : PipelineEnv) (now : Int) (req : PipelineRequest)
    (st : PipelineState) : Except String SuccessResult × PipelineState :=
  match rateCheck env.rateLimit env.rateWindow now st.rateEvents with
  | (Except.error e, window2) =>
      (Except.error e, { st with rateEvents := window2 })
  | (Except.ok _, window2) =>
      let st1 := { st with rateEvents := window2 }
      match authGate req.token "EXECUTE_ACTION" with
      | Except.error e => (Except.error e, st1)
      | Except.ok principal =>
          match verifySigned now (env.secretOf principal.userId) req.signed
              st1.nonces with
          | (Except.error e, _) => (Except.error e, st1)
          | (Except.ok _, nonces2) =>
              let st2 := { st1 with nonces := nonces2 }
              match processAction env.score principal.userId req.actionType
                  req.metadata with
              | Except.error e => (Except.error e, st2)
              | Except.ok delta =>
                  let ledger2 :=
                    ledgerCommit principal.userId req.actionType delta
                      st2.ledger
                  let st3 := { st2 with
                    ledger := ledger2
                    cacheValid := false
                    events := st2.events ++ [(principal.userId, delta)] }
                  (Except.ok
                    ⟨principal.userId, delta, ledger2.currentScore⟩, st3)

/-- The three fallible steps inside the ledger transaction of
`FLOW_DIAGRAM.md` section 6. -/
inductive TxStep where
  | updateScore
  | insertHistory
  | insertAction
deriving DecidableEq, Repr

/-- An `actions` table row. -/
structure ActionRecord where
  userId : String
  actionType : String
  scoreAwarded : ℚ
deriving DecidableEq, Repr

/-- The relational store: `users.current_score`, `score_history`, `actions`. -/
structure DbState where
  scores : List (String × ℚ)
  history : List ScoreTransaction
  actions : List ActionRecord
deriving DecidableEq, Repr

/-- `SELECT current_score FROM users` (0 for an unknown user). -/
def getScore (db : DbState) (u : String) : ℚ :=
  match db.scores.lookup u with
  | some s => s
  | none => 0

/-- `UPDATE users SET current_score = s WHERE id = u` (upserting). -/
def setScore (db : DbState) (u : String) (s : ℚ) : DbState :=
  { db with scores := (u, s) :: db.scores.filter (fun p => p.1 ≠ u) }

/-- Modelled from the spec: the database transaction of `FLOW_DIAGRAM.md`
section 6 — `BEGIN`, `SELECT ... FOR UPDATE`, recompute the new score,
`UPDATE users`, `INSERT INTO score_history`, `INSERT INTO actions`, then
`COMMIT`; `failAt` injects a failure into the named step, and any failure
rolls the whole unit back (`ROLLBACK`), leaving the observable state as it
was before the call. -/
def commitTx (db : DbState) (userId actionType : String) (delta : ℚ)
    (failAt : Option TxStep) : Except String Unit × DbState :=
  let before := getScore db userId
  let after := before + delta
  if failAt = some TxStep.updateScore then (Except.error "TX_ROLLBACK", db)
  else
    let db1 := setScore db userId after
    if failAt = some TxStep.insertHistory then (Except.error "TX_ROLLBACK", db)
    else
      let db2 := { db1 with
        history := db1.history ++
          [({ userId := userId, actionType := actionType,
              scoreBefore := before, scoreDelta := delta,
              scoreAfter := after } : ScoreTransaction)] }
      if failAt = some TxStep.insertAction then
        (Except.error "TX_ROLLBACK", db)
      else
        (Except.ok (), { db2 with
          actions := db2.actions ++
            [({ userId := userId, actionType := actionType,
                scoreAwarded := delta } : ActionRecord)] })

end ScoreBoard

/-! ## Theorems: Problem 4 -/

namespace Problem4

theorem loopSum_eq (k : Nat) : loopSum k = (k * (k + 1) : ℚ) / 2 := by
  induction k with
  | zero => simp [loopSum]
  | succ m ih =>
      simp only [loopSum, ih]
      push_cast
      ring

theorem sumRec_eq : ∀ k : Nat, sumRec k = (k * (k + 1) : ℚ) / 2
  | 0 => by simp [sumRec]
  | 1 => by norm_num [sumRec]
  | k + 2 => by
      have ih := sumRec_eq (k + 1)
      simp only [sumRec, ih]
      push_cast
      ring

/-- An integer rational `n` with `0 ≤ n` equals the cast of `n.num.toNat`. -/
theorem int_cast_num (n : ℚ) (h : isInteger n = true) (h0 : 0 ≤ n) :
    ((n.num.toNat : ℚ)) = n := by
  have hden : n.den = 1 := by
    simpa [isInteger] using h
  have hnum : (n.num : ℚ) = n := by
    rw [← Rat.num_div_den n, hden]
    simp
  have hpos : 0 ≤ n.num := Rat.num_nonneg.mpr h0
  rw [← hnum]
  exact_mod_cast congrArg (fun z : ℤ => (z : ℚ)) (Int.toNat_of_nonneg hpos)

/-- C9: the three summation implementations are equivalent where all are
defined: for every rational input that is an integer with
`0 ≤ n ≤ 10000 = MAX_SAFE_RECURSIVE_INPUT`, all of `sum_to_n_a`,
`sum_to_n_b`, `sum_to_n_c` return `n * (n + 1) / 2` and none throws; for
every non-integer or negative input, all three throw the validation error. -/
theorem sum_to_n_equivalence (n : ℚ) :
    (isInteger n = true → 0 ≤ n → n ≤ MAX_SAFE_RECURSIVE_INPUT →
      sum_to_n_a n = Except.ok (n * (n + 1) / 2) ∧
      sum_to_n_b n = Except.ok (n * (n + 1) / 2) ∧
      sum_to_n_c n = Except.ok (n * (n + 1) / 2)) ∧
    ((isInteger n = false ∨ n < 0) →
      sum_to_n_a n = Except.error "Input must be a non-negative integer" ∧
      sum_to_n_b n = Except.error "Input must be a non-negative integer" ∧
      sum_to_n_c n = Except.error "Input must be a non-negative integer") := by
  constructor
  · intro hint h0 hle
    have hneg : ¬ (n < 0) := not_lt.mpr h0
    have hcond : (!(isInteger n) || decide (n < 0)) = false := by
      rw [hint]
      simp [hneg]
    have hval : validateInput n none = Except.ok () := by
      simp [validateInput, hcond]
    have hleB : ¬ (n > MAX_SAFE_FORMULA_INPUT) := by
      have : n ≤ MAX_SAFE_FORMULA_INPUT := by
        refine le_trans hle ?_
        norm_num [MAX_SAFE_RECURSIVE_INPUT, MAX_SAFE_FORMULA_INPUT]
      exact not_lt.mpr this
    have hvalB : validateInput n (some MAX_SAFE_FORMULA_INPUT) = Except.ok () := by
      simp [validateInput, hcond, hleB]
    have hleC : ¬ (n > MAX_SAFE_RECURSIVE_INPUT) := not_lt.mpr hle
    have hvalC : validateInput n (some MAX_SAFE_RECURSIVE_INPUT) = Except.ok () := by
      simp [validateInput, hcond, hleC]
    have hk : ((n.num.toNat : ℚ)) = n := int_cast_num n hint h0
    refine ⟨?_, ?_, ?_⟩
    · by_cases hn0 : n = 0
      · subst hn0
        simp [sum_to_n_a, hval]
      · have hbeq : (n == 0) = false := by
          simpa using hn0
        simp only [sum_to_n_a, hval, hbeq, Bool.false_eq_true, if_false]
        rw [loopSum_eq, hk]
    · by_cases hn0 : n = 0
      · subst hn0
        simp [sum_to_n_b, hvalB]
      · have hbeq : (n == 0) = false := by
          simpa using hn0
        simp only [sum_to_n_b, hvalB, hbeq, Bool.false_eq_true, if_false]
    · simp only [sum_to_n_c, hvalC]
      rw [sumRec_eq, hk]
  · intro hbad
    have hcond : (!(isInteger n) || decide (n < 0)) = true := by
      rcases hbad with h | h
      · simp [h]
      · simp [h]
    refine ⟨?_, ?_, ?_⟩
    · simp [sum_to_n_a, validateInput, hcond]
    · simp [sum_to_n_b, validateInput, hcond]
    · simp [sum_to_n_c, validateInput, hcond]

/-- Witness for C9 at concrete inputs `n = 3` and `n = -1`. -/
theorem sum_to_n_equivalence_witness :
    sum_to_n_a 3 = Except.ok (3 * (3 + 1) / 2) ∧
    sum_to_n_b 3 = Except.ok (3 * (3 + 1) / 2) ∧
    sum_to_n_c 3 = Except.ok (3 * (3 + 1) / 2) ∧
    sum_to_n_a (-1) = Except.error "Input must be a non-negative integer" := by
  have h3 := (sum_to_n_equivalence 3).1 (by decide) (by norm_num)
    (by norm_num [MAX_SAFE_RECURSIVE_INPUT])
  have hneg := (sum_to_n_equivalence (-1)).2 (Or.inr (by norm_num))
  exact ⟨h3.1, h3.2.1, h3.2.2, hneg.1⟩

end Problem4

/-! ## Theorems: authentication middleware (C6) -/

namespace NewsAuth

/-- C6 counterexample: the code rejects an expired token and a malformed
token with the SAME single 401 error — not with distinct
INVALID_TOKEN / TOKEN_EXPIRED typed errors — because `verifyToken` swallows
both `jsonwebtoken` exceptions and returns `null`; and `authorize` does not
decide by permission-set membership: the editor role holds the `delete`
permission (`hasPermission`), yet `authorize [admin]` rejects an editor
principal with 403. -/
theorem authGate_contract_counterexample :
    (authenticate (some (Token.expired ⟨"u1", "e@x", UserRole.editor⟩))
        (fun _ => some ⟨true⟩) =
      authenticate (some Token.malformed) (fun _ => some ⟨true⟩)) ∧
    authenticate (some Token.malformed) (fun _ => some ⟨true⟩) =
      Except.error ⟨"Invalid or expired token.", 401⟩ ∧
    hasPermission UserRole.editor "delete" = true ∧
    authorize [UserRole.admin] (some ⟨"u1", "e@x", UserRole.editor⟩) =
      Except.error
        ⟨accessDeniedMessage [UserRole.admin] UserRole.editor, 403⟩ := by
  refine ⟨rfl, rfl, by decide, ?_⟩
  simp [authorize]

/-- C6 amended: `authenticate` returns the decoded principal for a valid
token of an existing active user; invalid and expired tokens are both
rejected with the one 401 error "Invalid or expired token." (no distinct
error codes); `authorize` passes exactly when the principal's role is a
member of the allowed-roles list, otherwise rejecting with status 403, and
the decision depends on nothing but that role membership. -/
theorem authGate_contract (p : JwtPayload) (findById : String → Option UserRow)
    (t : Token) (roles : List UserRole) (u : Principal) :
    (∀ row, findById p.id = some row → row.isActive = true →
      authenticate (some (Token.valid p)) findById =
        Except.ok ⟨p.id, p.email, p.role⟩) ∧
    (verifyToken t = none →
      authenticate (some t) findById =
        Except.error ⟨"Invalid or expired token.", 401⟩) ∧
    (verifyToken t = none ↔
      (t = Token.malformed ∨ ∃ q, t = Token.expired q)) ∧
    (authorize roles (some u) = Except.ok () ↔ u.role ∈ roles) ∧
    (u.role ∉ roles →
      authorize roles (some u) =
        Except.error ⟨accessDeniedMessage roles u.role, 403⟩) := by
  refine ⟨?_, ?_, ?_, ?_, ?_⟩
  · intro row hrow hact
    simp [authenticate, verifyToken, hrow, hact]
  · intro h
    simp [authenticate, h]
  · cases t <;> simp [verifyToken]
  · by_cases hm : u.role ∈ roles
    · simp [authorize, hm]
    · simp [authorize, hm]
  · intro hm
    simp [authorize, hm]

/-- Witness for the amended C6 at concrete inputs. -/
theorem authGate_contract_witness :
    authenticate (some (Token.valid ⟨"u1", "e@x", UserRole.editor⟩))
        (fun _ => some ⟨true⟩) =
      Except.ok ⟨"u1", "e@x", UserRole.editor⟩ ∧
    authorize [UserRole.editor] (some ⟨"u1", "e@x", UserRole.editor⟩) =
      Except.ok () := by
  have h := authGate_contract ⟨"u1", "e@x", UserRole.editor⟩
      (fun _ => some ⟨true⟩) Token.malformed [UserRole.editor]
      ⟨"u1", "e@x", UserRole.editor⟩
  exact ⟨h.1 ⟨true⟩ rfl rfl, h.2.2.2.1.mpr (by simp)⟩

end NewsAuth

/-! ## Theorems: DELETE route reachability (C10) -/

namespace NewsApi

open NewsAuth

/-- C10: for every authenticated principal whose role is editor or viewer,
the `DELETE /api/news/:id` route rejects with status 403 in the `authorize`
middleware before the delete handler runs, leaving the article store
unchanged — even though `ROLE_PERMISSIONS` lists `delete` among the editor
role's permissions (`hasPermission editor delete = true`). -/
theorem deleteRoute_blocked_for_non_admin (u : Principal)
    (targetId : String) (db : List Article) :
    (u.role = UserRole.editor ∨ u.role = UserRole.viewer) →
    (runDeleteRoute u targetId db).1 = 403 ∧
    (runDeleteRoute u targetId db).2 = db ∧
    hasPermission UserRole.editor "delete" = true := by
  intro hrole
  have hne : u.role ≠ UserRole.admin := by
    rcases hrole with h | h <;> simp [h]
  refine ⟨?_, ?_, by decide⟩ <;> simp [runDeleteRoute, authorize, hne]

/-- Witness for C10: an editor principal cannot delete an existing article. -/
theorem deleteRoute_blocked_for_non_admin_witness :
    (runDeleteRoute ⟨"u2", "ed@x", UserRole.editor⟩ "a1" [⟨"a1"⟩]).1 = 403 ∧
    (runDeleteRoute ⟨"u2", "ed@x", UserRole.editor⟩ "a1" [⟨"a1"⟩]).2 =
      [⟨"a1"⟩] := by
  have h := deleteRoute_blocked_for_non_admin
      ⟨"u2", "ed@x", UserRole.editor⟩ "a1" [⟨"a1"⟩] (Or.inl rfl)
  exact ⟨h.1, h.2.1⟩

/-! ## Theorems: error handler exposure (C8) -/

/-- C8 counterexample: with `NODE_ENV = "development"`, the default branch of
`errorHandler` copies the internal error message — here raw storage
connection details — into the client-visible response body, so the response
does not hide internal details under every configuration. -/
theorem errorHandler_leak_counterexample :
    ((errorHandler ⟨ErrKind.plain "MongoNetworkError" none,
        "connect ECONNREFUSED mongodb://db:27017"⟩ "development").2).error =
      some "connect ECONNREFUSED mongodb://db:27017" := by
  rfl

/-- C8 amended: every `errorHandler` response has `success = false`, the
branch-specific status and fixed message; the `AppError` branch returns only
the operational message and status under every configuration; unhandled
errors return the generic 500 body whose `error` field carries the internal
message exactly when `NODE_ENV = "development"` — so in any configuration
other than development no internal message is ever exposed. -/
theorem errorHandler_exposure (err : JsError) (nodeEnv : String) :
    ((errorHandler err nodeEnv).2).success = false ∧
    (∀ sc, err.kind = ErrKind.app sc →
      errorHandler err nodeEnv = (sc, ⟨false, err.message, none, none⟩)) ∧
    (isDefaultBranch err →
      errorHandler err nodeEnv = (500, ⟨false, "Internal server error", none,
        if nodeEnv = "development" then some err.message else none⟩)) ∧
    (((errorHandler err nodeEnv).2).error ≠ none →
      nodeEnv = "development") := by
  obtain ⟨kind, msg⟩ := err
  cases kind with
  | app sc =>
      refine ⟨rfl, ?_, ?_, ?_⟩
      · intro sc2 h
        cases h
        rfl
      · intro hdef
        simp [isDefaultBranch] at hdef
      · intro h
        exact absurd rfl h
  | plain name code =>
      by_cases h1 : name = "ValidationError"
      · refine ⟨?_, ?_, ?_, ?_⟩
        · simp [errorHandler, h1]
        · intro sc h
          cases h
        · intro hdef
          simp [isDefaultBranch] at hdef
          exact absurd h1 hdef.1
        · intro h
          refine absurd ?_ h
          simp [errorHandler, h1]
      · by_cases h2 : name = "CastError"
        · refine ⟨?_, ?_, ?_, ?_⟩
          · simp [errorHandler, h1, h2]
          · intro sc h
            cases h
          · intro hdef
            simp [isDefaultBranch] at hdef
            exact absurd h2 (hdef.2).1
          · intro h
            refine absurd ?_ h
            simp [errorHandler, h1, h2]
        · by_cases h3 : name = "MongoError" ∧ code = some 11000
          · refine ⟨?_, ?_, ?_, ?_⟩
            · simp [errorHandler, h1, h2, h3]
            · intro sc h
              cases h
            · intro hdef
              simp [isDefaultBranch] at hdef
              exact absurd h3.2 ((hdef.2).2 h3.1)
            · intro h
              refine absurd ?_ h
              simp [errorHandler, h1, h2, h3]
          · refine ⟨?_, ?_, ?_, ?_⟩
            · simp [errorHandler, h1, h2, h3]
            · intro sc h
              cases h
            · intro hdef
              simp [errorHandler, h1, h2, h3]
            · intro h
              by_contra hne
              apply h
              simp [errorHandler, h1, h2, h3, hne]

/-- Witness for the amended C8: a 404 `AppError` in production yields the
operational body with no internal field. -/
theorem errorHandler_exposure_witness :
    errorHandler ⟨ErrKind.app 404, "News not found"⟩ "production" =
      (404, ⟨false, "News not found", none, none⟩) :=
  (errorHandler_exposure ⟨ErrKind.app 404, "News not found"⟩
    "production").2.1 404 rfl

end NewsApi

/-! ## Theorems: zero-trust score computation (C1) -/

namespace ScoreBoard

/-- C1: zero-trust scoring noninterference — two ActionRequests that differ
only in the client-asserted reward-like field of `actionData`
(`pointsRequested`) produce the same `scoreDelta`: `processAction` is a
function of the server-held environment (task store, static score table,
level data) and the whitelisted metadata fields `taskId` and
`completionTime` only, never of a client-supplied score value. -/
theorem processAction_noninterference (env : ScoreEnv)
    (userId actionType : String) (m1 m2 : ActionMetadata) :
    m1.taskId = m2.taskId → m1.completionTime = m2.completionTime →
    processAction env userId actionType m1 =
      processAction env userId actionType m2 := by
  intro ht hc
  obtain ⟨t1, c1, p1⟩ := m1
  obtain ⟨t2, c2, p2⟩ := m2
  simp only at ht hc
  subst ht
  subst hc
  rfl

/-- Witness for C1: a request carrying `pointsRequested = 999999` is scored
identically to the same request without the field. -/
theorem processAction_noninterference_witness :
    processAction ⟨fun _ => some ⟨"u1", false⟩, fun _ => 50, fun _ => 1,
        fun _ => 1⟩ "u1" "COMPLETE_TASK" ⟨"t1", 120, some 999999⟩ =
      processAction ⟨fun _ => some ⟨"u1", false⟩, fun _ => 50, fun _ => 1,
        fun _ => 1⟩ "u1" "COMPLETE_TASK" ⟨"t1", 120, none⟩ :=
  processAction_noninterference _ "u1" "COMPLETE_TASK" _ _ rfl rfl

/-! ## Theorems: ledger consistency (C2) -/

theorem chainedTo_append (t : ScoreTransaction) (ts : List ScoreTransaction) :
    ∀ s e : ℚ, ChainedTo s ts e →
    t.scoreBefore = e → t.scoreAfter = e + t.scoreDelta →
    ChainedTo s (ts ++ [t]) t.scoreAfter := by
  induction ts with
  | nil =>
      intro s e h hb ha
      subst h
      exact ⟨hb, by rw [ha], rfl⟩
  | cons x rest ih =>
      intro s e h hb ha
      obtain ⟨h1, h2, h3⟩ := h
      exact ⟨h1, h2, ih x.scoreAfter e h3 hb ha⟩

theorem commitAll_chained (userId : String) (ops : List (String × ℚ)) :
    ∀ st : UserScoreState, ∀ s0 : ℚ,
    ChainedTo s0 st.history st.currentScore →
    ChainedTo s0 (commitAll userId ops st).history
      (commitAll userId ops st).currentScore := by
  induction ops with
  | nil =>
      intro st s0 h
      simpa [commitAll] using h
  | cons op rest ih =>
      intro st s0 h
      have hstep : ChainedTo s0 (ledgerCommit userId op.1 op.2 st).history
          (ledgerCommit userId op.1 op.2 st).currentScore := by
        simp only [ledgerCommit]
        exact chainedTo_append _ _ _ _ h rfl rfl
      have hres := ih (ledgerCommit userId op.1 op.2 st) s0 hstep
      simpa [commitAll] using hres

theorem chainedTo_each (ts : List ScoreTransaction) :
    ∀ s e : ℚ, ChainedTo s ts e →
    ∀ t ∈ ts, t.scoreAfter = t.scoreBefore + t.scoreDelta := by
  induction ts with
  | nil =>
      intro s e _ t ht
      simp at ht
  | cons x rest ih =>
      intro s e h t ht
      obtain ⟨h1, h2, h3⟩ := h
      rcases List.mem_cons.mp ht with rfl | ht2
      · rw [h2, h1]
      · exact ih x.scoreAfter e h3 t ht2

theorem chainedTo_chain (ts : List ScoreTransaction) :
    ∀ s e : ℚ, ChainedTo s ts e →
    List.Chain' (fun a b => b.scoreBefore = a.scoreAfter) ts := by
  induction ts with
  | nil =>
      intro s e _
      exact List.chain'_nil
  | cons x rest ih =>
      intro s e h
      obtain ⟨h1, h2, h3⟩ := h
      cases rest with
      | nil => simp
      | cons y rest2 =>
          obtain ⟨g1, g2, g3⟩ := h3
          rw [List.chain'_cons]
          exact ⟨g1, ih x.scoreAfter e ⟨g1, g2, g3⟩⟩

theorem chainedTo_replay (ts : List ScoreTransaction) :
    ∀ s e : ℚ, ChainedTo s ts e → replayScore s ts = e := by
  induction ts with
  | nil =>
      intro s e h
      simpa [replayScore] using h.symm
  | cons x rest ih =>
      intro s e h
      obtain ⟨h1, h2, h3⟩ := h
      have hrest := ih x.scoreAfter e h3
      simp only [replayScore, List.foldl_cons] at hrest ⊢
      rw [← h2]
      exact hrest

/-- C2: ledger consistency — starting from any initial score, any sequence of
TransactionalLedger commits for a user yields a history in which every
committed transaction satisfies `scoreAfter = scoreBefore + scoreDelta`, each
consecutive pair chains (`scoreBefore` of transaction k+1 equals `scoreAfter`
of transaction k in commit order), and replaying the history in commit order
reconstructs `currentScore` exactly. -/
theorem ledger_consistency (userId : String) (s0 : ℚ)
    (ops : List (String × ℚ)) :
    (∀ t ∈ (commitAll userId ops ⟨s0, []⟩).history,
      t.scoreAfter = t.scoreBefore + t.scoreDelta) ∧
    List.Chain' (fun a b => b.scoreBefore = a.scoreAfter)
      (commitAll userId ops ⟨s0, []⟩).history ∧
    replayScore s0 (commitAll userId ops ⟨s0, []⟩).history =
      (commitAll userId ops ⟨s0, []⟩).currentScore := by
  have h := commitAll_chained userId ops ⟨s0, []⟩ s0 rfl
  exact ⟨chainedTo_each _ _ _ h, chainedTo_chain _ _ _ h,
    chainedTo_replay _ _ _ h⟩

/-- Witness for C2 on a concrete two-commit history. -/
theorem ledger_consistency_witness :
    replayScore 0 (commitAll "u1" [("COMPLETE_TASK", 50), ("DAILY_LOGIN", 10)]
        ⟨0, []⟩).history =
      (commitAll "u1" [("COMPLETE_TASK", 50), ("DAILY_LOGIN", 10)]
        ⟨0, []⟩).currentScore :=
  (ledger_consistency "u1" 0 [("COMPLETE_TASK", 50), ("DAILY_LOGIN", 10)]).2.2

end ScoreBoard

/-! ## Theorems: nonce replay rejection (C3) -/

namespace ScoreBoard

/-- C3 counterexample: a valid signed request accepted at time 0 and
resubmitted unchanged at time 100 — still within the 300 s nonce TTL — is
rejected as STALE_REQUEST by the timestamp gate (which runs before the nonce
gate), not with REPLAY_ATTACK as the claim states for every timing within
the nonce TTL. -/
theorem nonce_rejection_counterexample :
    (verifySigned 0 "k" ⟨"p", "n1", 0, "u1", "k:p|n1|0|u1"⟩ []).1 =
      Except.ok () ∧
    (verifySigned 100 "k" ⟨"p", "n1", 0, "u1", "k:p|n1|0|u1"⟩
        ((verifySigned 0 "k" ⟨"p", "n1", 0, "u1", "k:p|n1|0|u1"⟩ []).2)).1 =
      Except.error "STALE_REQUEST" := by
  constructor
  · rfl
  · rfl

/-- C3 amended: submitting a correctly signed request with a fresh nonce
twice yields success exactly once — the duplicate is rejected with
REPLAY_ATTACK whenever it arrives inside the 60 s freshness window and
within the nonce TTL of the first acceptance, and with STALE_REQUEST when it
arrives after the freshness window; the nonce is checked against the store
before processing and is inserted only on success (any rejection leaves the
store unchanged). -/
theorem nonce_rejection (now1 now2 : Int) (secret : String)
    (req : SignedRequest) (store : List (String × Int)) :
    (req.signature = hmacTag secret (canonicalMessage req) →
      nonceSeen store now1 req.nonce = false →
      now1 - req.timestamp < 60 →
      (verifySigned now1 secret req store).1 = Except.ok () ∧
      (now2 - req.timestamp < 60 → now2 - now1 < NONCE_TTL →
        (verifySigned now2 secret req
          (verifySigned now1 secret req store).2).1 =
          Except.error "REPLAY_ATTACK") ∧
      (60 ≤ now2 - req.timestamp →
        (verifySigned now2 secret req
          (verifySigned now1 secret req store).2).1 =
          Except.error "STALE_REQUEST")) ∧
    (∀ e, (verifySigned now1 secret req store).1 = Except.error e →
      (verifySigned now1 secret req store).2 = store) := by
  constructor
  · intro hsig hnonce hfresh
    have hstale1 : ¬ (60 ≤ now1 - req.timestamp) := not_le.mpr hfresh
    have h1 : verifySigned now1 secret req store =
        (Except.ok (), store ++ [(req.nonce, now1)]) := by
      simp [verifySigned, hstale1, hnonce, hsig]
    refine ⟨by rw [h1], ?_, ?_⟩
    · intro hfresh2 httl
      have hstale2 : ¬ (60 ≤ now2 - req.timestamp) := not_le.mpr hfresh2
      have hseen : nonceSeen (store ++ [(req.nonce, now1)]) now2 req.nonce =
          true := by
        simp [nonceSeen, List.any_append, httl]
      rw [h1]
      simp [verifySigned, hstale2, hseen]
    · intro hstale2
      rw [h1]
      simp [verifySigned, hstale2]
  · by_cases hs : 60 ≤ now1 - req.timestamp
    · simp [verifySigned, hs]
    · by_cases hn : nonceSeen store now1 req.nonce
      · simp [verifySigned, hs, hn]
      · by_cases hsig2 : req.signature = hmacTag secret (canonicalMessage req)
        · intro e h
          exfalso
          simp [verifySigned, hs, hn, hsig2] at h
        · simp [verifySigned, hs, hn, hsig2]

/-- Witness for the amended C3: a concrete request accepted at time 0 and
rejected as a replay at time 10. -/
theorem nonce_rejection_witness :
    (verifySigned 0 "k" ⟨"p", "n2", 0, "u1", "k:p|n2|0|u1"⟩ []).1 =
      Except.ok () ∧
    (verifySigned 10 "k" ⟨"p", "n2", 0, "u1", "k:p|n2|0|u1"⟩
        ((verifySigned 0 "k" ⟨"p", "n2", 0, "u1", "k:p|n2|0|u1"⟩ []).2)).1 =
      Except.error "REPLAY_ATTACK" := by
  have h := (nonce_rejection 0 10 "k" ⟨"p", "n2", 0, "u1", "k:p|n2|0|u1"⟩
      []).1 rfl rfl (by decide)
  exact ⟨h.1, h.2.1 (by decide) (by decide)⟩

/-! ## Theorems: commit atomicity (C5) -/

/-- C5: commit atomicity — the ledger transaction either performs all of its
effects (update the user's score row to `scoreBefore + delta`, append the
`ScoreTransaction` history row, append the action record) or none of them:
whenever any step fails mid-sequence the observable state after the call is
exactly the state before it, a failure is reported for every injected
failing step, and the failure-free run commits all three effects. -/
theorem commitTx_atomic (db : DbState) (userId actionType : String)
    (delta : ℚ) (failAt : Option TxStep) :
    (∀ e, (commitTx db userId actionType delta failAt).1 = Except.error e →
      (commitTx db userId actionType delta failAt).2 = db) ∧
    ((commitTx db userId actionType delta failAt).1 = Except.ok () →
      (commitTx db userId actionType delta failAt).2 =
        { scores := (userId, getScore db userId + delta) ::
            db.scores.filter (fun p => p.1 ≠ userId)
          history := db.history ++ [⟨userId, actionType, getScore db userId,
            delta, getScore db userId + delta⟩]
          actions := db.actions ++ [⟨userId, actionType, delta⟩] }) ∧
    (failAt = none →
      (commitTx db userId actionType delta failAt).1 = Except.ok ()) ∧
    (∀ s, failAt = some s →
      (commitTx db userId actionType delta failAt).1 =
        Except.error "TX_ROLLBACK") := by
  cases failAt with
  | none =>
      refine ⟨?_, ?_, fun _ => rfl, ?_⟩
      · intro e h
        exfalso
        simp [commitTx] at h
      · intro _
        simp [commitTx, setScore]
      · intro s h
        cases h
  | some s =>
      cases s with
      | updateScore =>
          refine ⟨fun e _ => rfl, ?_, ?_, fun s2 _ => rfl⟩
          · intro h
            exfalso
            simp [commitTx] at h
          · intro h
            cases h
      | insertHistory =>
          refine ⟨fun e _ => rfl, ?_, ?_, fun s2 _ => rfl⟩
          · intro h
            exfalso
            simp [commitTx] at h
          · intro h
            cases h
      | insertAction =>
          refine ⟨fun e _ => rfl, ?_, ?_, fun s2 _ => rfl⟩
          · intro h
            exfalso
            simp [commitTx] at h
          · intro h
            cases h

/-- Witness for C5: a failure injected at the history-insert step leaves the
store untouched, and the failure-free run succeeds. -/
theorem commitTx_atomic_witness :
    (commitTx ⟨[("u1", 100)], [], []⟩ "u1" "COMPLETE_TASK" 50
        (some TxStep.insertHistory)).2 = ⟨[("u1", 100)], [], []⟩ ∧
    (commitTx ⟨[("u1", 100)], [], []⟩ "u1" "COMPLETE_TASK" 50 none).1 =
      Except.ok () := by
  have h := commitTx_atomic ⟨[("u1", 100)], [], []⟩ "u1" "COMPLETE_TASK" 50
      (some TxStep.insertHistory)
  have h2 := commitTx_atomic ⟨[("u1", 100)], [], []⟩ "u1" "COMPLETE_TASK" 50
      none
  exact ⟨h.1 "TX_ROLLBACK" (h.2.2.2 TxStep.insertHistory rfl),
    h2.2.2.1 rfl⟩

end ScoreBoard

/-! ## Theorems: sliding-window rate limiting (C7) -/

namespace ScoreBoard

theorem filter_replicate_self (n : Nat) (t w : Int) (hw : 0 < w) :
    (List.replicate n t).filter (fun ts => decide (t - w < ts)) =
      List.replicate n t := by
  have hlt : t - w < t := by omega
  induction n with
  | zero => rfl
  | succ k ih =>
      simp only [List.replicate_succ, List.filter_cons, ih]
      simp [hlt]

theorem repeatCheck_ok (limit : Nat) (w t : Int) (hw : 0 < w) :
    ∀ k : Nat, k ≤ limit →
    repeatCheck limit w t k = (true, List.replicate k t) := by
  intro k
  induction k with
  | zero => intro _; rfl
  | succ m ih =>
      intro hk
      have hm := ih (Nat.le_of_succ_le hk)
      have hfilter := filter_replicate_self m t w hw
      have hlen : ¬ (limit ≤
          ((List.replicate m t).filter
            (fun ts => decide (t - w < ts))).length) := by
        rw [hfilter, List.length_replicate]
        omega
      simp only [repeatCheck, hm, rateCheck, hlen, if_false]
      rw [hfilter, ← List.replicate_succ']

/-- C7: rate-limit boundary for the sliding-window log — with a limit of N
per window of width w, the first N requests inside the window are all
allowed, the (N+1)th request in the same window is rejected with
RATE_LIMIT_EXCEEDED, and once the window has elapsed a subsequent request is
allowed again; each check purges entries older than the window, counts the
remainder and compares against the limit, exactly as the sliding-window log
algorithm prescribes. -/
theorem rate_limit_boundary (N : Nat) (w t t2 : Int) :
    0 < w → 1 ≤ N →
    repeatCheck N w t N = (true, List.replicate N t) ∧
    (rateCheck N w t (List.replicate N t)).1 =
      Except.error "RATE_LIMIT_EXCEEDED" ∧
    (t + w ≤ t2 →
      rateCheck N w t2 (List.replicate N t) = (Except.ok (), [t2])) := by
  intro hw hN
  refine ⟨repeatCheck_ok N w t hw N le_rfl, ?_, ?_⟩
  · have hfilter := filter_replicate_self N t w hw
    have hlen : N ≤ ((List.replicate N t).filter
        (fun ts => decide (t - w < ts))).length := by
      rw [hfilter, List.length_replicate]
    simp [rateCheck, hlen]
  · intro h2
    have hfilter : (List.replicate N t).filter
        (fun ts => decide (t2 - w < ts)) = [] := by
      rw [List.filter_eq_nil_iff]
      intro a ha
      rw [List.eq_of_mem_replicate ha]
      simp only [decide_eq_true_eq]
      omega
    have hlen : ¬ (N ≤ ((List.replicate N t).filter
        (fun ts => decide (t2 - w < ts))).length) := by
      rw [hfilter]
      simp
      omega
    simp only [rateCheck, hlen, if_false]
    rw [hfilter]
    simp

/-- Witness for C7 with N = 2, w = 60: two requests at time 0 pass, the
third is rejected, and a request at time 60 passes again. -/
theorem rate_limit_boundary_witness :
    repeatCheck 2 60 0 2 = (true, [0, 0]) ∧
    (rateCheck 2 60 0 [0, 0]).1 = Except.error "RATE_LIMIT_EXCEEDED" ∧
    rateCheck 2 60 60 [0, 0] = (Except.ok (), [60]) := by
  have h := rate_limit_boundary 2 60 0 60 (by norm_num) (by norm_num)
  exact ⟨h.1, h.2.1, h.2.2 (by norm_num)⟩

end ScoreBoard

/-! ## Theorems: pipeline ordering (C4) -/

namespace ScoreBoard

/-- C4: pipeline ordering — every request is evaluated by the stages in the
fixed order RateLimiter, AuthGate, SignatureVerifier, ScoreEngine,
TransactionalLedger, CacheInvalidator/Broadcaster: a request rejected at any
stage terminates with that stage's typed rejection (the reported code is the
first failing stage in the fixed order) and never reaches persistence (the
ledger and the broadcast channel are untouched), and exactly the requests
that clear every stage are committed to the ledger. -/
theorem pipeline_ordering (env : PipelineEnv) (now : Int)
    (req : PipelineRequest) (st : PipelineState) :
    ((∃ e, (processRequest env now req st).1 = Except.error e) →
      (processRequest env now req st).2.ledger = st.ledger ∧
      (processRequest env now req st).2.events = st.events) ∧
    (∀ out, (processRequest env now req st).1 = Except.ok out →
      (processRequest env now req st).2.ledger =
        ledgerCommit out.userId req.actionType out.scoreDelta st.ledger) ∧
    ((rateCheck env.rateLimit env.rateWindow now st.rateEvents).1 =
        Except.error "RATE_LIMIT_EXCEEDED" →
      (processRequest env now req st).1 =
        Except.error "RATE_LIMIT_EXCEEDED") ∧
    (∀ e, (rateCheck env.rateLimit env.rateWindow now st.rateEvents).1 =
        Except.ok () →
      authGate req.token "EXECUTE_ACTION" = Except.error e →
      (processRequest env now req st).1 = Except.error e) ∧
    (∀ p e, (rateCheck env.rateLimit env.rateWindow now st.rateEvents).1 =
        Except.ok () →
      authGate req.token "EXECUTE_ACTION" = Except.ok p →
      (verifySigned now (env.secretOf p.userId) req.signed st.nonces).1 =
        Except.error e →
      (processRequest env now req st).1 = Except.error e) ∧
    (∀ p e, (rateCheck env.rateLimit env.rateWindow now st.rateEvents).1 =
        Except.ok () →
      authGate req.token "EXECUTE_ACTION" = Except.ok p →
      (verifySigned now (env.secretOf p.userId) req.signed st.nonces).1 =
        Except.ok () →
      processAction env.score p.userId req.actionType req.metadata =
        Except.error e →
      (processRequest env now req st).1 = Except.error e) ∧
    (∀ p d, (rateCheck env.rateLimit env.rateWindow now st.rateEvents).1 =
        Except.ok () →
      authGate req.token "EXECUTE_ACTION" = Except.ok p →
      (verifySigned now (env.secretOf p.userId) req.signed st.nonces).1 =
        Except.ok () →
      processAction env.score p.userId req.actionType req.metadata =
        Except.ok d →
      (processRequest env now req st).1 = Except.ok
        ⟨p.userId, d,
          (ledgerCommit p.userId req.actionType d st.ledger).currentScore⟩) := by
  rcases hS1 : rateCheck env.rateLimit env.rateWindow now st.rateEvents
    with ⟨r1, w2⟩
  cases r1 with
  | error e0 =>
      have hred : processRequest env now req st =
          (Except.error e0, { st with rateEvents := w2 }) := by
        simp only [processRequest, hS1]
      refine ⟨?_, ?_, ?_, ?_, ?_, ?_, ?_⟩
      · intro _
        rw [hred]
        exact ⟨rfl, rfl⟩
      · intro out h
        rw [hred] at h
        simp at h
      · intro h3
        simp only at h3
        injection h3 with he
        subst he
        rw [hred]
      · intro e hrok
        simp at hrok
      · intro p e hrok
        simp at hrok
      · intro p e hrok
        simp at hrok
      · intro p d hrok
        simp at hrok
  | ok u0 =>
      cases u0
      rcases hS2 : authGate req.token "EXECUTE_ACTION" with e1 | p0
      · have hred : processRequest env now req st =
            (Except.error e1, { st with rateEvents := w2 }) := by
          simp only [processRequest, hS1, hS2]
        refine ⟨?_, ?_, ?_, ?_, ?_, ?_, ?_⟩
        · intro _
          rw [hred]
          exact ⟨rfl, rfl⟩
        · intro out h
          rw [hred] at h
          simp at h
        · intro h3
          simp at h3
        · intro e hrok hauth
          injection hauth with he
          subst he
          rw [hred]
        · intro p e hrok hauth
          simp at hauth
        · intro p e hrok hauth
          simp at hauth
        · intro p d hrok hauth
          simp at hauth
      · rcases hS3 : verifySigned now (env.secretOf p0.userId) req.signed
          st.nonces with ⟨r3, ns2⟩
        cases r3 with
        | error e2 =>
            have hred : processRequest env now req st =
                (Except.error e2, { st with rateEvents := w2 }) := by
              simp only [processRequest, hS1, hS2, hS3]
            refine ⟨?_, ?_, ?_, ?_, ?_, ?_, ?_⟩
            · intro _
              rw [hred]
              exact ⟨rfl, rfl⟩
            · intro out h
              rw [hred] at h
              simp at h
            · intro h3
              simp at h3
            · intro e hrok hauth
              simp at hauth
            · intro p e hrok hauth hver
              injection hauth with hp
              subst hp
              rw [hS3] at hver
              simp at hver
              rw [hred, hver]
            · intro p e hrok hauth hver
              injection hauth with hp
              subst hp
              rw [hS3] at hver
              simp at hver
            · intro p d hrok hauth hver
              injection hauth with hp
              subst hp
              rw [hS3] at hver
              simp at hver
        | ok u3 =>
            cases u3
            rcases hS4 : processAction env.score p0.userId req.actionType
              req.metadata with e3 | d0
            · have hred : processRequest env now req st =
                  (Except.error e3,
                    { st with rateEvents := w2, nonces := ns2 }) := by
                simp only [processRequest, hS1, hS2, hS3, hS4]
              refine ⟨?_, ?_, ?_, ?_, ?_, ?_, ?_⟩
              · intro _
                rw [hred]
                exact ⟨rfl, rfl⟩
              · intro out h
                rw [hred] at h
                simp at h
              · intro h3
                simp at h3
              · intro e hrok hauth
                simp at hauth
              · intro p e hrok hauth hver
                injection hauth with hp
                subst hp
                rw [hS3] at hver
                simp at hver
              · intro p e hrok hauth hver hact
                injection hauth with hp
                subst hp
                rw [hS4] at hact
                injection hact with he
                subst he
                rw [hred]
              · intro p d hrok hauth hver hact
                injection hauth with hp
                subst hp
                rw [hS4] at hact
                simp at hact
            · have hred : processRequest env now req st =
                  (Except.ok ⟨p0.userId, d0,
                      (ledgerCommit p0.userId req.actionType d0
                        st.ledger).currentScore⟩,
                    { st with
                        rateEvents := w2
                        nonces := ns2
                        ledger := ledgerCommit p0.userId req.actionType d0
                          st.ledger
                        cacheValid := false
                        events := st.events ++ [(p0.userId, d0)] }) := by
                simp only [processRequest, hS1, hS2, hS3, hS4]
              refine ⟨?_, ?_, ?_, ?_, ?_, ?_, ?_⟩
              · intro hex
                obtain ⟨e, he⟩ := hex
                rw [hred] at he
                simp at he
              · intro out h
                rw [hred] at h
                simp only [Except.ok.injEq] at h
                subst h
                rw [hred]
              · intro h3
                simp at h3
              · intro e hrok hauth
                simp at hauth
              · intro p e hrok hauth hver
                injection hauth with hp
                subst hp
                rw [hS3] at hver
                simp at hver
              · intro p e hrok hauth hver hact
                injection hauth with hp
                subst hp
                rw [hS4] at hact
                simp at hact
              · intro p d hrok hauth hver hact
                injection hauth with hp
                subst hp
                rw [hS4] at hact
                injection hact with hd
                subst hd
                rw [hred]

/-- Witness for C4: with a zero rate limit the pipeline rejects the request
with RATE_LIMIT_EXCEEDED and the ledger and broadcast channel are
untouched. -/
theorem pipeline_ordering_witness :
    (processRequest ⟨0, 60, fun _ => "k",
        ⟨fun _ => none, fun _ => 0, fun _ => 0, fun _ => 1⟩⟩ 0
      ⟨GatewayToken.invalid, ⟨"p", "n", 0, "u", ""⟩, "A", ⟨"t", 0, none⟩⟩
      ⟨[], [], ⟨0, []⟩, true, []⟩).1 = Except.error "RATE_LIMIT_EXCEEDED" ∧
    (processRequest ⟨0, 60, fun _ => "k",
        ⟨fun _ => none, fun _ => 0, fun _ => 0, fun _ => 1⟩⟩ 0
      ⟨GatewayToken.invalid, ⟨"p", "n", 0, "u", ""⟩, "A", ⟨"t", 0, none⟩⟩
      ⟨[], [], ⟨0, []⟩, true, []⟩).2.ledger = ⟨0, []⟩ := by
  have h := pipeline_ordering ⟨0, 60, fun _ => "k",
      ⟨fun _ => none, fun _ => 0, fun _ => 0, fun _ => 1⟩⟩ 0
    ⟨GatewayToken.invalid, ⟨"p", "n", 0, "u", ""⟩, "A", ⟨"t", 0, none⟩⟩
    ⟨[], [], ⟨0, []⟩, true, []⟩
  have hrate := h.2.2.1 rfl
  exact ⟨hrate, ((h.1) ⟨"RATE_LIMIT_EXCEEDED", hrate⟩).1⟩

end ScoreBoard
